import Mathlib

/-!
Shallow embedding of the Benthos AMQP output (`lib/output/amqp.go`, given as
`src/unnamed/part_000`) and the Websocket input reader
(`src/lib/input/reader/websocket.go`).

Conventions of the embedding:
* byte slices become `List Nat`; a message (`types.Message`) is its list of
  parts, `List (List Nat)`;
* the Go error values that matter to the spec become the inductive `Err`;
  a returned `error` is `Option Err` (`none` = `nil`);
* pointers that the code only tests against `nil` (the AMQP `amqpChan` and
  `conn`, the websocket `client`) become `Bool` flags recording "non-nil";
* nondeterminism of the outside world (publish outcomes, confirmations,
  which arm of a Go `select` fires, dial results) is supplied by explicit
  oracle values; theorems quantify over the oracle, so they cover every
  scheduling the real program can see;
* atomic operations (`atomic.CompareAndSwapInt32`, channel `close`) are
  linearizable, so a set of concurrent calls is modelled as an arbitrary
  sequence of the corresponding atomic state transformers.
-/

namespace Benthos

/-- The error values of `lib/types` and the transport errors that reach the
code under study. `publish`, `connectFail`, `sign` and `dial` carry an opaque
code distinguishing unequal transport errors. -/
inductive Err where
  | noAck
  | timeout
  | notConnected
  | alreadyStarted
  | publish (code : Nat)
  | connectFail (code : Nat)
  | sign (code : Nat)
  | dial (code : Nat)
deriving DecidableEq, Repr

/-! ### Websocket input reader (`src/lib/input/reader/websocket.go`) -/

/-- Mutable state of a `reader.Websocket`: whether `w.client` is non-nil.
All access to the field is serialized through `w.lock`, so one `Bool`
suffices. -/
structure WebsocketState where
  client : Bool
deriving DecidableEq, Repr

/-- `NewWebsocket` leaves `client` nil. -/
def newWebsocket : WebsocketState := ⟨false⟩

/-- Oracle outcome of `client.ReadMessage()`. -/
inductive ReadEvent where
  | ok (data : List Nat)
  | err (code : Nat)
deriving DecidableEq, Repr

/-- `Websocket.Read` (lines 119-135): if `getWS()` is nil return
`ErrNotConnected`; on a read error drop the stored client under the lock and
return `ErrNotConnected`; otherwise wrap the received payload as a one-part
message. Returns the new state and either an error or the message. -/
def websocketRead (s : WebsocketState) (ev : ReadEvent) :
    WebsocketState × Except Err (List (List Nat)) :=
  if s.client = false then
    (s, .error .notConnected)
  else
    match ev with
    | .err _ => (⟨false⟩, .error .notConnected)
    | .ok data => (s, .ok [data])

/-- Oracle outcome of `websocket.DefaultDialer.Dial`. -/
inductive DialEvent where
  | ok
  | fail (code : Nat)
deriving DecidableEq, Repr

/-- `Websocket.Connect` (lines 91-114). `signErr` is the oracle outcome of
`w.conf.Sign` (`none` = success). The third component records whether the
dial was performed at all. -/
def websocketConnect (s : WebsocketState) (signErr : Option Nat)
    (dial : DialEvent) : WebsocketState × Option Err × Bool :=
  if s.client = true then
    (s, none, false)
  else
    match signErr with
    | some c => (s, some (.sign c), false)
    | none =>
      match dial with
      | .fail c => (s, some (.dial c), true)
      | .ok => (⟨true⟩, none, true)

/-- `Websocket.WaitForClose` (lines 154-156): returns `nil` unconditionally,
ignoring the timeout. -/
def websocketWaitForClose (_timeout : Nat) : Option Err :=
  none

/-! ### AMQP output: lifecycle fields (`src/unnamed/part_000`) -/

/-- The mutable fields of the `AMQP` struct that the claims are about, plus
the metric counters the loop increments.  `closedCount` counts `close`
operations applied to `closedChan` (a second close would panic, so the model
counts them); `closeCount` does the same for `closeChan`. -/
structure AMQPState where
  running : Nat
  conn : Bool
  amqpChan : Bool
  closedCount : Nat
  closeCount : Nat
  mRunning : Int
  mReconErr : Nat
  mReconSucc : Nat
  mCount : Nat
  mSucc : Nat
  mErr : Nat
deriving DecidableEq, Repr

/-- `NewAMQP`: running flag 1, no connection, both channels open and
unclosed, all counters zero. -/
def newAMQP : AMQPState :=
  { running := 1, conn := false, amqpChan := false
  , closedCount := 0, closeCount := 0
  , mRunning := 0, mReconErr := 0, mReconSucc := 0
  , mCount := 0, mSucc := 0, mErr := 0 }

/-- `CloseAsync` (lines 269-273): compare-and-swap `running` from 1 to 0;
only the winning call closes `closeChan`. -/
def closeAsync (s : AMQPState) : AMQPState :=
  if s.running = 1 then
    { s with running := 0, closeCount := s.closeCount + 1 }
  else
    s

/-- A sequence of `n` `CloseAsync` calls.  Concurrent calls linearize to such
a sequence because the compare-and-swap is atomic. -/
def closeAsyncN : Nat → AMQPState → AMQPState
  | 0, s => s
  | n + 1, s => closeAsyncN n (closeAsync s)

/-- `disconnect` (lines 135-146): nils out `amqpChan` and closes/nils `conn`.
It never touches `closedChan`. -/
def disconnect (s : AMQPState) : AMQPState :=
  { s with amqpChan := false, conn := false }

/-- `WaitForClose` (lines 276-283): race `closedChan` against
`time.After(timeout)`.  `closedAt` is the instant at which `closedChan`
closes (`none` = not during this wait); when both arms are ready at the same
instant the model lets the closed arm win (Go picks either; no claim depends
on the tie). -/
def amqpWaitForClose (closedAt : Option Nat) (timeout : Nat) : Option Err :=
  match closedAt with
  | some t => if t ≤ timeout then none else some .timeout
  | none => some .timeout

/-! ### AMQP output: per-transaction publish loop (lines 212-254) -/

/-- What the `select` after a successful `Publish` observes (lines 231-238):
either a confirmation arrives on `amqpConfirmChan` (with its `Ack` flag), or
`closeChan` fires first. -/
inductive ConfirmRace where
  | confirm (ack : Bool)
  | close
deriving DecidableEq, Repr

/-- Oracle outcome of one `amqpChan.Publish` call together with the
subsequent confirmation race.  `error c` means the publish call itself
returned a non-nil error. -/
inductive PublishOutcome where
  | ok (race : ConfirmRace)
  | error (code : Nat)
deriving DecidableEq, Repr

/-- The environment of one transaction: `pub i` is the outcome for part
index `i`, and `respClose` tells whether `closeChan` wins the race against
the `ResponseChan` write at lines 250-254. -/
structure TxEnv where
  pub : Nat → PublishOutcome
  respClose : Bool

/-- The part of `AMQPState` the inner part loop touches: the session flag
(`amqpChan ≠ nil`) and the `send.success` / `send.error` counters. -/
structure PartSt where
  session : Bool
  succ : Nat
  errc : Nat
deriving DecidableEq, Repr

/-- Result of the `for _, part := range ts.Payload.GetAll()` loop
(lines 214-248).  `brk err st n`: the loop finished (by exhausting the parts
or by `break`) with final `err`, state `st`, after `n` publish attempts;
`ret st n`: the function executed `return` because `closeChan` fired while
awaiting a confirmation. -/
inductive InnerResult where
  | brk (err : Option Err) (st : PartSt) (attempted : Nat)
  | ret (st : PartSt) (attempted : Nat)
deriving DecidableEq, Repr

/-- The part loop itself, started at part index `i` with `i` publish
attempts already made.  Mirrors lines 214-248: publish; on publish error
`disconnect()` (drop the session), count `mErr`, `break`; on success race the
confirmation against `closeChan` (`return` if close fires); a negative
confirmation becomes `types.ErrNoAck`; `err == nil` counts `mSucc` and
continues, otherwise counts `mErr` and breaks. -/
def partsLoop (pub : Nat → PublishOutcome) :
    List (List Nat) → Nat → PartSt → InnerResult
  | [], i, st => .brk none st i
  | _ :: rest, i, st =>
    match pub i with
    | .error c =>
      .brk (some (.publish c))
        { st with session := false, errc := st.errc + 1 } (i + 1)
    | .ok .close => .ret st (i + 1)
    | .ok (.confirm true) =>
      partsLoop pub rest (i + 1) { st with succ := st.succ + 1 }
    | .ok (.confirm false) =>
      .brk (some .noAck) { st with errc := st.errc + 1 } (i + 1)

/-- Outcome of serving one transaction.  `result r n sess`: exactly one
`Result` with error `r` was written to the transaction's `ResponseChan`
after `n` publish attempts, leaving session flag `sess`; `abandoned n sess`:
`closeChan` fired first (during a confirmation wait or the response write),
the loop returned and no `Result` was written. -/
inductive TxOutcome where
  | result (r : Option Err) (attempted : Nat) (sess : Bool)
  | abandoned (attempted : Nat) (sess : Bool)
deriving DecidableEq, Repr

/-- Lines 212-254 for one received transaction with payload `parts`,
entered with session flag `session`. -/
def processTransaction (env : TxEnv) (parts : List (List Nat))
    (session : Bool) : TxOutcome :=
  match partsLoop env.pub parts 0 ⟨session, 0, 0⟩ with
  | .ret st n => .abandoned n st.session
  | .brk err st n =>
    if env.respClose then .abandoned n st.session
    else .result err n st.session

/-- The list of `Result` error values written to the transaction's
`ResponseChan` while serving it: one element on the `result` path, none on
the `abandoned` path. -/
def writtenResults (env : TxEnv) (parts : List (List Nat))
    (session : Bool) : List (Option Err) :=
  match processTransaction env parts session with
  | .result r _ _ => [r]
  | .abandoned _ _ => []

/-- The session flag an outcome leaves behind. -/
def outcomeSession : TxOutcome → Bool
  | .result _ _ sess => sess
  | .abandoned _ sess => sess

/-! ### AMQP output: the full supervisory loop (lines 151-256) -/

/-- Oracle outcome of one `a.connect()` call inside a retry loop: success,
or failure together with which arm of the ensuing
`select \x7b time.After(time.Second) / closeChan \x7d` fires first. -/
inductive ConnAttempt where
  | ok
  | fail (closeDuringWait : Bool)
deriving DecidableEq, Repr

/-- A successful `connect()` (lines 103-132): `conn` and `amqpChan` become
non-nil and the confirm channel is armed.  A failed `connect()` is modelled
as leaving the handles as they were (the `Dial`-failure case; a later
failure inside `connect` can leave a dangling `conn`, which the code never
consults before the next `connect` overwrites it). -/
def connectOk (s : AMQPState) : AMQPState :=
  { s with conn := true, amqpChan := true }

/-- The deferred block of `loop` (lines 161-168): store 0 into `running`,
`disconnect()`, decrement the running gauge, and `close(closedChan)`. -/
def finalize (s : AMQPState) : AMQPState :=
  { disconnect s with
    running := 0,
    mRunning := s.mRunning - 1,
    closedCount := s.closedCount + 1 }

/-- The initial connect loop (lines 171-182): retry `connect()`; on failure
race a one-second timer against `closeChan` and `return` (running the
deferred block) if the close request fires first.  No metric is touched in
this phase.  `none` means the oracle list ran out while still retrying
(the real loop would just keep retrying). -/
def initConnectPhase : List ConnAttempt → AMQPState →
    Option (AMQPState ⊕ AMQPState)
  | [], _ => none
  | .ok :: _, s => some (.inr (connectOk s))
  | .fail false :: rest, s => initConnectPhase rest s
  | .fail true :: _, s => some (.inl (finalize s))

/-- The reconnect retries of lines 188-199, once `amqpChan` is nil: each
failed `connect()` increments `reconnect.error` and races the timer against
`closeChan`; a success increments `reconnect.success`.  `Sum.inl` is a
`return` (deferred block already applied), `Sum.inr` continues the outer
loop. -/
def reconnectAttempts : List ConnAttempt → AMQPState →
    Option (AMQPState ⊕ AMQPState)
  | [], _ => none
  | .ok :: _, s =>
    some (.inr (connectOk { s with mReconSucc := s.mReconSucc + 1 }))
  | .fail false :: rest, s =>
    reconnectAttempts rest { s with mReconErr := s.mReconErr + 1 }
  | .fail true :: _, s =>
    some (.inl (finalize { s with mReconErr := s.mReconErr + 1 }))

/-- The `for a.amqpChan == nil` guard (line 187): the reconnect retries run
only while the session handle is nil. -/
def reconnectPhase (attempts : List ConnAttempt) (s : AMQPState) :
    Option (AMQPState ⊕ AMQPState) :=
  if s.amqpChan then some (.inr s) else reconnectAttempts attempts s

/-- What the `select` over the transaction channel and `closeChan` observes
(lines 203-210): a transaction arrives, the transaction channel is found
closed (`!open`), or the close request fires first. -/
inductive TxChanEvent where
  | tx (parts : List (List Nat)) (env : TxEnv)
  | chanClosed
  | close

/-- The oracle for one iteration of the outer loop: whether a concurrent
`CloseAsync` call lands just before the `running` check of line 186, the
outcomes of any reconnect attempts, and what the transaction select sees. -/
structure IterEnv where
  closeAsyncNow : Bool
  reconnect : List ConnAttempt
  txEvent : TxChanEvent

/-- The oracle for a whole run of `loop`. -/
structure LoopEnv where
  initConnect : List ConnAttempt
  iter : Nat → IterEnv

/-- Merge the state of the inner part loop back into the `AMQP` fields:
`session = false` only ever comes from the `disconnect()` of line 240, which
nils both handles; the success/error counts add to the metric counters. -/
def applyPartSt (s : AMQPState) (st : PartSt) : AMQPState :=
  { s with
    amqpChan := st.session,
    conn := if st.session then s.conn else false,
    mSucc := s.mSucc + st.succ,
    mErr := s.mErr + st.errc }

/-- Serving one received transaction inside the outer loop (lines 212-254):
count it, run the part loop, and either exit through the deferred block
(`closeChan` won a race; second component `none`) or write the `Result`
error value `some err` and continue. -/
def serveTx (txenv : TxEnv) (parts : List (List Nat)) (s : AMQPState) :
    AMQPState × Option (Option Err) :=
  match partsLoop txenv.pub parts 0 ⟨s.amqpChan, 0, 0⟩ with
  | .ret st _ =>
    (finalize (applyPartSt { s with mCount := s.mCount + 1 } st), none)
  | .brk err st _ =>
    if txenv.respClose then
      (finalize (applyPartSt { s with mCount := s.mCount + 1 } st), none)
    else (applyPartSt { s with mCount := s.mCount + 1 } st, some err)

/-- The outer `for atomic.LoadInt32(&a.running) == 1` loop (lines 186-255).
`i` numbers the iterations, `acc` accumulates the `Result` error values
written to transaction `ResponseChan`s, `fuel` bounds the number of
iterations (`none` = the run did not finish within the fuel or the oracle
lists ran out). -/
def mainLoop (env : LoopEnv) :
    Nat → Nat → AMQPState → List (Option Err) →
    Option (AMQPState × List (Option Err))
  | 0, _, _, _ => none
  | fuel + 1, i, s, acc =>
    let s1 := if (env.iter i).closeAsyncNow then closeAsync s else s
    if s1.running ≠ 1 then some (finalize s1, acc)
    else
      match reconnectPhase (env.iter i).reconnect s1 with
      | none => none
      | some (.inl sExit) => some (sExit, acc)
      | some (.inr s2) =>
        match (env.iter i).txEvent with
        | .close => some (finalize s2, acc)
        | .chanClosed => some (finalize s2, acc)
        | .tx parts txenv =>
          match serveTx txenv parts s2 with
          | (sx, none) => some (sx, acc)
          | (sx, some err) => mainLoop env fuel (i + 1) sx (acc ++ [err])

/-- The state `loop` starts from: a fresh `NewAMQP` state with the running
gauge incremented (line 169). -/
def startState : AMQPState :=
  { newAMQP with mRunning := newAMQP.mRunning + 1 }

/-- A whole run of `loop` from a fresh `NewAMQP` state: increment the
running gauge, run the initial connect phase, then the outer loop. -/
def runLoop (env : LoopEnv) (fuel : Nat) :
    Option (AMQPState × List (Option Err)) :=
  match initConnectPhase env.initConnect startState with
  | none => none
  | some (.inl sExit) => some (sExit, [])
  | some (.inr s) => mainLoop env fuel 0 s []

/-- The session flag an `InnerResult` carries. -/
def innerSession : InnerResult → Bool
  | .brk _ st _ => st.session
  | .ret st _ => st.session

/-! ### Concrete scenario environments -/

/-- Every publish succeeds and is positively confirmed; no close request. -/
def allOkEnv : TxEnv :=
  ⟨fun _ => .ok (.confirm true), false⟩

/-- A three-part payload. -/
def parts3 : List (List Nat) := [[0], [1], [2]]

/-- All parts publish fine, but the confirmation for the second part
(index 1) is negative; no close request. -/
def nack3Env : TxEnv :=
  ⟨fun i => if i = 1 then .ok (.confirm false) else .ok (.confirm true),
   false⟩

/-- The publish call for the second part (index 1) itself errors; no close
request. -/
def pubErr3Env : TxEnv :=
  ⟨fun i => if i = 1 then .error 5 else .ok (.confirm true), false⟩

/-- A run in which the initial connect succeeds and a `CloseAsync` lands
before the first iteration of the outer loop. -/
def closeNowEnv : LoopEnv :=
  ⟨[.ok], fun _ => ⟨true, [], .close⟩⟩

/-- The state `runLoop closeNowEnv 1` ends in. -/
def cFin6 : AMQPState :=
  { running := 0, conn := false, amqpChan := false, closedCount := 1
  , closeCount := 1, mRunning := 0, mReconErr := 0, mReconSucc := 0
  , mCount := 0, mSucc := 0, mErr := 0 }

/-- A run in which the transport fails `connect()` twice and then succeeds
at startup, one transaction is then served successfully, and a `CloseAsync`
ends the loop. -/
def startupFailEnv : LoopEnv :=
  { initConnect := [.fail false, .fail false, .ok]
  , iter := fun i =>
      if i = 0 then ⟨false, [], .tx [[7]] allOkEnv⟩
      else ⟨true, [], .close⟩ }

/-- The state `runLoop startupFailEnv 2` ends in. -/
def cFin9 : AMQPState :=
  { running := 0, conn := false, amqpChan := false, closedCount := 1
  , closeCount := 1, mRunning := 0, mReconErr := 0, mReconSucc := 0
  , mCount := 1, mSucc := 1, mErr := 0 }

/-! ## Theorems -/

/-- Helper: when every part from index `i` on publishes and is positively
confirmed, the part loop processes them all, keeps the session, counts one
`send.success` per part, and ends with a nil error. -/
theorem partsLoop_all_ack (pub : Nat → PublishOutcome) :
    ∀ (parts : List (List Nat)) (i : Nat) (st : PartSt),
    (∀ j, j < parts.length → pub (i + j) = .ok (.confirm true)) →
    partsLoop pub parts i st =
      .brk none ⟨st.session, st.succ + parts.length, st.errc⟩
        (i + parts.length) := by
  intro parts
  induction parts with
  | nil =>
    intro i st _
    simp [partsLoop]
  | cons p rest ih =>
    intro i st h
    have h0 : pub i = .ok (.confirm true) := by
      have := h 0 (Nat.succ_pos _)
      simpa using this
    have hrest : ∀ j, j < rest.length →
        pub ((i + 1) + j) = .ok (.confirm true) := by
      intro j hj
      have := h (j + 1) (by simpa using Nat.succ_lt_succ hj)
      have e : i + (j + 1) = (i + 1) + j := by omega
      rw [e] at this
      exact this
    simp only [partsLoop, h0]
    rw [ih (i + 1) { st with succ := st.succ + 1 } hrest]
    simp [InnerResult.brk.injEq, PartSt.mk.injEq, List.length_cons]
    omega

/-- Helper: a nil final error means every part was positively confirmed. -/
theorem partsLoop_brk_none (pub : Nat → PublishOutcome) :
    ∀ (parts : List (List Nat)) (i : Nat) (st st' : PartSt) (n : Nat),
    partsLoop pub parts i st = .brk none st' n →
    ∀ j, j < parts.length → pub (i + j) = .ok (.confirm true) := by
  intro parts
  induction parts with
  | nil =>
    intro i st st' n _ j hj
    simp at hj
  | cons p rest ih =>
    intro i st st' n h j hj
    cases hp : pub i with
    | error c =>
      simp only [partsLoop, hp] at h
      cases h
    | ok race =>
      cases race with
      | close =>
        simp only [partsLoop, hp] at h
        cases h
      | confirm ack =>
        cases ack with
        | false =>
          simp only [partsLoop, hp] at h
          cases h
        | true =>
          simp only [partsLoop, hp] at h
          cases j with
          | zero => simpa using hp
          | succ j =>
            have := ih (i + 1) { st with succ := st.succ + 1 } st' n h j
              (by simpa using Nat.lt_of_succ_lt_succ hj)
            have e : (i + 1) + j = i + (j + 1) := by omega
            rw [e] at this
            exact this

/-- Helper: the part loop never executes the `return` of line 237 when no
close request can win a confirmation race. -/
theorem partsLoop_no_close (pub : Nat → PublishOutcome) :
    ∀ (parts : List (List Nat)) (i : Nat) (st : PartSt),
    (∀ j, j < parts.length → pub (i + j) ≠ .ok .close) →
    ∃ e st' n, partsLoop pub parts i st = .brk e st' n := by
  intro parts
  induction parts with
  | nil =>
    intro i st _
    exact ⟨none, st, i, rfl⟩
  | cons p rest ih =>
    intro i st h
    cases hp : pub i with
    | error c =>
      refine ⟨some (.publish c),
        { st with session := false, errc := st.errc + 1 }, i + 1, ?_⟩
      simp only [partsLoop, hp]
    | ok race =>
      cases race with
      | close =>
        exact absurd (by simpa using hp) (h 0 (Nat.succ_pos _))
      | confirm ack =>
        cases ack with
        | false =>
          refine ⟨some .noAck, { st with errc := st.errc + 1 }, i + 1, ?_⟩
          simp only [partsLoop, hp]
        | true =>
          have hrest : ∀ j, j < rest.length →
              pub ((i + 1) + j) ≠ .ok .close := by
            intro j hj
            have := h (j + 1) (by simpa using Nat.succ_lt_succ hj)
            have e : i + (j + 1) = (i + 1) + j := by omega
            rw [e] at this
            exact this
          obtain ⟨e, st', n, hrec⟩ :=
            ih (i + 1) { st with succ := st.succ + 1 } hrest
          exact ⟨e, st', n, by simp only [partsLoop, hp]; exact hrec⟩

/-- Helper: if parts `i..i+k-1` are positively confirmed and part `i+k`
fails — by a publish error or by a negative confirmation — the loop breaks
right there, with the matching error, `k+1` publish attempts past `i`, the
session dropped exactly in the publish-error case, and one `send.error`
count. -/
theorem partsLoop_first_fail (pub : Nat → PublishOutcome) :
    ∀ (parts : List (List Nat)) (k i : Nat) (st : PartSt),
    k < parts.length →
    (∀ j, j < k → pub (i + j) = .ok (.confirm true)) →
    ((∀ c, pub (i + k) = .error c →
        partsLoop pub parts i st =
          .brk (some (.publish c)) ⟨false, st.succ + k, st.errc + 1⟩
            (i + k + 1)) ∧
     (pub (i + k) = .ok (.confirm false) →
        partsLoop pub parts i st =
          .brk (some .noAck) ⟨st.session, st.succ + k, st.errc + 1⟩
            (i + k + 1))) := by
  intro parts
  induction parts with
  | nil =>
    intro k i st hk _
    simp at hk
  | cons p rest ih =>
    intro k i st hk hok
    cases k with
    | zero =>
      constructor
      · intro c hc
        rw [show i + 0 = i by omega] at hc
        simp only [partsLoop, hc]
        simp [InnerResult.brk.injEq, PartSt.mk.injEq]
      · intro hc
        rw [show i + 0 = i by omega] at hc
        simp only [partsLoop, hc]
        simp [InnerResult.brk.injEq, PartSt.mk.injEq]
    | succ k =>
      have h0 : pub i = .ok (.confirm true) := by
        have := hok 0 (Nat.succ_pos _)
        simpa using this
      have hok' : ∀ j, j < k → pub ((i + 1) + j) = .ok (.confirm true) := by
        intro j hj
        have := hok (j + 1) (Nat.succ_lt_succ hj)
        have e : i + (j + 1) = (i + 1) + j := by omega
        rw [e] at this
        exact this
      have hk' : k < rest.length := Nat.lt_of_succ_lt_succ hk
      have hrec := ih k (i + 1) { st with succ := st.succ + 1 } hk' hok'
      have eidx : i + (k + 1) = (i + 1) + k := by omega
      constructor
      · intro c hc
        rw [eidx] at hc
        simp only [partsLoop, h0]
        rw [hrec.1 c hc]
        simp [InnerResult.brk.injEq, PartSt.mk.injEq]
        omega
      · intro hc
        rw [eidx] at hc
        simp only [partsLoop, h0]
        rw [hrec.2 hc]
        simp [InnerResult.brk.injEq, PartSt.mk.injEq]
        omega

/-- Helper: a non-nil final error is the failure of the first part that did
not confirm positively. -/
theorem partsLoop_brk_some (pub : Nat → PublishOutcome) :
    ∀ (parts : List (List Nat)) (i : Nat) (st st' : PartSt) (n : Nat)
      (e : Err),
    partsLoop pub parts i st = .brk (some e) st' n →
    ∃ k, k < parts.length ∧
      (∀ j, j < k → pub (i + j) = .ok (.confirm true)) ∧
      n = i + k + 1 ∧
      ((∃ c, pub (i + k) = .error c ∧ e = .publish c) ∨
       (pub (i + k) = .ok (.confirm false) ∧ e = .noAck)) := by
  intro parts
  induction parts with
  | nil =>
    intro i st st' n e h
    cases h
  | cons p rest ih =>
    intro i st st' n e h
    cases hp : pub i with
    | error c =>
      simp only [partsLoop, hp] at h
      obtain ⟨he, -, hn⟩ := InnerResult.brk.inj h
      refine ⟨0, Nat.succ_pos _, by omega, by omega, Or.inl ⟨c, ?_, ?_⟩⟩
      · simpa using hp
      · exact (Option.some.inj he).symm
    | ok race =>
      cases race with
      | close =>
        simp only [partsLoop, hp] at h
        cases h
      | confirm ack =>
        cases ack with
        | false =>
          simp only [partsLoop, hp] at h
          obtain ⟨he, -, hn⟩ := InnerResult.brk.inj h
          refine ⟨0, Nat.succ_pos _, by omega, by omega,
            Or.inr ⟨by simpa using hp, (Option.some.inj he).symm⟩⟩
        | true =>
          simp only [partsLoop, hp] at h
          obtain ⟨k, hk, hok, hn, hfail⟩ :=
            ih (i + 1) { st with succ := st.succ + 1 } st' n e h
          refine ⟨k + 1, Nat.succ_lt_succ hk, ?_, by omega, ?_⟩
          · intro j hj
            cases j with
            | zero => simpa using hp
            | succ j =>
              have := hok j (Nat.lt_of_succ_lt_succ hj)
              have eq1 : (i + 1) + j = i + (j + 1) := by omega
              rw [eq1] at this
              exact this
          · have eq2 : (i + 1) + k = i + (k + 1) := by omega
            rw [eq2] at hfail
            exact hfail

/-- Helper: when no publish call errors, the session flag survives the part
loop unchanged — only the `disconnect()` of line 240 can clear it. -/
theorem partsLoop_session (pub : Nat → PublishOutcome)
    (hnoerr : ∀ j c, pub j ≠ .error c) :
    ∀ (parts : List (List Nat)) (i : Nat) (st : PartSt),
    innerSession (partsLoop pub parts i st) = st.session := by
  intro parts
  induction parts with
  | nil =>
    intro i st
    rfl
  | cons p rest ih =>
    intro i st
    cases hp : pub i with
    | error c => exact absurd hp (hnoerr i c)
    | ok race =>
      cases race with
      | close => simp [partsLoop, hp, innerSession]
      | confirm ack =>
        cases ack with
        | false => simp [partsLoop, hp, innerSession]
        | true =>
          simp only [partsLoop, hp]
          exact ih (i + 1) { st with succ := st.succ + 1 }

/-- C4 counterexample: the Websocket input's `WaitForClose` called with
timeout 0 while nothing is closed returns `nil`, not the `Timeout` error the
claim demands of both connectors. -/
theorem websocket_waitForClose_cex :
    websocketWaitForClose 0 = none ∧
    ¬ websocketWaitForClose 0 = some Err.timeout := by
  exact ⟨rfl, by decide⟩

/-- C4 (amended): the AMQP output's `WaitForClose` succeeds exactly when
the closed-confirmation signal fires within the timeout and returns
`Timeout` otherwise — in particular with timeout 0 while the loop is still
connecting — whereas the Websocket input's `WaitForClose` returns `nil`
immediately for every timeout. -/
theorem waitForClose_spec (closedAt : Option Nat) (timeout : Nat) :
    (amqpWaitForClose closedAt timeout = none ↔
      ∃ t, closedAt = some t ∧ t ≤ timeout) ∧
    amqpWaitForClose none 0 = some Err.timeout ∧
    (∀ tm, websocketWaitForClose tm = none) := by
  refine ⟨?_, rfl, fun _ => rfl⟩
  cases closedAt with
  | none => simp [amqpWaitForClose]
  | some t =>
    by_cases h : t ≤ timeout <;> simp [amqpWaitForClose, h]

/-- C5: any sequence of `CloseAsync` calls from a live output closes
`closeChan` exactly once — only the call winning the compare-and-swap of
`running` performs the `close`, so `closeCount` never exceeds one and no
double-close panic is reachable. -/
theorem closeAsync_effect_once (n : Nat) (s : AMQPState)
    (hr : s.running = 1) (hc : s.closeCount = 0) :
    (closeAsyncN n s).closeCount = min n 1 ∧
    (closeAsyncN n s).running = (if n = 0 then 1 else 0) := by
  have hfix : ∀ (m : Nat) (t : AMQPState), t.running = 0 →
      closeAsyncN m t = t := by
    intro m
    induction m with
    | zero => intro t _; rfl
    | succ m ih =>
      intro t ht
      have : closeAsync t = t := by
        simp [closeAsync, ht]
      simp [closeAsyncN, this, ih t ht]
  cases n with
  | zero => simp [closeAsyncN, hr, hc]
  | succ n =>
    have h1 : closeAsync s = { s with running := 0, closeCount := 1 } := by
      simp [closeAsync, hr, hc]
    have h2 := hfix n { s with running := 0, closeCount := 1 } rfl
    constructor
    · simp [closeAsyncN, h1, h2]
    · simp [closeAsyncN, h1, h2]

/-- C5 witness: two `CloseAsync` calls on a fresh output close `closeChan`
once and leave the running flag at 0. -/
theorem closeAsync_effect_once_witness :
    (closeAsyncN 2 newAMQP).closeCount = min 2 1 ∧
    (closeAsyncN 2 newAMQP).running = (if 2 = 0 then 1 else 0) :=
  closeAsync_effect_once 2 newAMQP rfl rfl

/-- C7: `Websocket.Read` returns `NotConnected` when no session handle is
stored; a transport read failure nils the stored handle and returns
`NotConnected`; a message comes back only from a successful read on a live
session, and is exactly the received payload. -/
theorem websocketRead_spec (s : WebsocketState) (ev : ReadEvent) :
    (s.client = false → websocketRead s ev = (s, .error .notConnected)) ∧
    (∀ c, s.client = true →
      websocketRead s (.err c) = (⟨false⟩, .error .notConnected)) ∧
    (∀ s' m, websocketRead s ev = (s', .ok m) →
      s.client = true ∧ s' = s ∧ ∃ data, ev = .ok data ∧ m = [data]) := by
  obtain ⟨cl⟩ := s
  refine ⟨?_, ?_, ?_⟩
  · intro h
    subst h
    rfl
  · intro c h
    subst h
    rfl
  · intro s' m h
    cases cl with
    | false => simp [websocketRead] at h
    | true =>
      cases ev with
      | err c => simp [websocketRead] at h
      | ok data =>
        have h' : ((⟨true⟩ : WebsocketState),
            (Except.ok [data] : Except Err (List (List Nat)))) = (s', .ok m) :=
          h
        rw [Prod.mk.injEq] at h'
        obtain ⟨ha, hb⟩ := h'
        injection hb with hb
        exact ⟨rfl, ha.symm, data, rfl, hb.symm⟩

/-- C7 witness: reading with no stored session returns `NotConnected` and
leaves the state unchanged. -/
theorem websocketRead_spec_witness :
    websocketRead ⟨false⟩ (.ok [1, 2]) =
      (⟨false⟩, .error .notConnected) :=
  (websocketRead_spec ⟨false⟩ (.ok [1, 2])).1 rfl

/-- C8: `Websocket.Connect` is idempotent — with a stored handle it returns
success immediately without dialling and leaves the handle unchanged; it
dials only when no handle is stored, and the handle ends up stored exactly
when the sign step succeeds and the dial succeeds. -/
theorem websocketConnect_spec (s : WebsocketState) (se : Option Nat)
    (d : DialEvent) :
    (s.client = true → websocketConnect s se d = (s, none, false)) ∧
    ((websocketConnect s se d).2.2 = true → s.client = false) ∧
    (s.client = false →
      ((websocketConnect s se d).1.client = true ↔
        se = none ∧ d = .ok)) := by
  obtain ⟨cl⟩ := s
  refine ⟨?_, ?_, ?_⟩
  · intro h
    have hcl : cl = true := h
    subst hcl
    rfl
  · intro h
    cases cl with
    | true => simp [websocketConnect] at h
    | false => rfl
  · intro h
    have hcl : cl = false := h
    subst hcl
    cases se with
    | some c => simp [websocketConnect]
    | none =>
      cases d with
      | ok => simp [websocketConnect]
      | fail c => simp [websocketConnect]

/-- C8 witness: connecting while a handle is stored is a no-op success that
performs no dial. -/
theorem websocketConnect_spec_witness :
    websocketConnect ⟨true⟩ (some 3) .ok = (⟨true⟩, none, false) :=
  (websocketConnect_spec ⟨true⟩ (some 3) .ok).1 rfl

/-- C10: every successful `Websocket.Read` yields a message of exactly one
part whose bytes are the received payload. -/
theorem websocketRead_single_part (s : WebsocketState) (ev : ReadEvent)
    (s' : WebsocketState) (m : List (List Nat))
    (h : websocketRead s ev = (s', .ok m)) :
    m.length = 1 ∧ ∃ data, ev = .ok data ∧ m = [data] := by
  obtain ⟨cl⟩ := s
  cases cl with
  | false => simp [websocketRead] at h
  | true =>
    cases ev with
    | err c => simp [websocketRead] at h
    | ok data =>
      have h' : ((⟨true⟩ : WebsocketState),
          (Except.ok [data] : Except Err (List (List Nat)))) = (s', .ok m) :=
        h
      rw [Prod.mk.injEq] at h'
      obtain ⟨_, hb⟩ := h'
      injection hb with hb
      exact ⟨by rw [← hb]; rfl, data, rfl, hb.symm⟩

/-- C10 witness: a successful read of payload `[9]` yields the one-part
message `[[9]]`. -/
theorem websocketRead_single_part_witness :
    ([[9]] : List (List Nat)).length = 1 ∧
    ∃ data, ReadEvent.ok [9] = ReadEvent.ok data ∧ [[9]] = [data] :=
  websocketRead_single_part ⟨true⟩ (.ok [9]) ⟨true⟩ [[9]] rfl

/-- C1: for a transaction served by the loop, when neither the confirmation
waits nor the response write lose their race to a close request, exactly one
`Result` is written to the `ResponseChan`; it is a success exactly when every
part was published and positively confirmed, and otherwise it carries the
failure of the first part that did not go through.  When a close request
wins instead, the transaction is abandoned with no `Result` written. -/
theorem amqp_tx_exactly_one_result (env : TxEnv) (parts : List (List Nat))
    (session : Bool)
    (hresp : env.respClose = false)
    (hnc : ∀ i, i < parts.length → env.pub i ≠ .ok .close) :
    (writtenResults env parts session).length = 1 ∧
    (writtenResults env parts session = [none] ↔
      ∀ i, i < parts.length → env.pub i = .ok (.confirm true)) ∧
    (∀ e, writtenResults env parts session = [some e] →
      ∃ k, k < parts.length ∧
        (∀ j, j < k → env.pub j = .ok (.confirm true)) ∧
        ((∃ c, env.pub k = .error c ∧ e = .publish c) ∨
         (env.pub k = .ok (.confirm false) ∧ e = .noAck))) ∧
    (∀ env' : TxEnv, ∀ n sess,
      processTransaction env' parts session = .abandoned n sess →
      writtenResults env' parts session = []) := by
  obtain ⟨e, st', n, hb⟩ := partsLoop_no_close env.pub parts 0 ⟨session, 0, 0⟩
    (by intro j hj; simpa using hnc j hj)
  have hw : writtenResults env parts session = [e] := by
    simp [writtenResults, processTransaction, hb, hresp]
  refine ⟨by simp [hw], ?_, ?_, ?_⟩
  · rw [hw]
    constructor
    · intro h
      have he : e = none := by simpa using h
      subst he
      intro i hi
      have := partsLoop_brk_none env.pub parts 0 ⟨session, 0, 0⟩ st' n hb i hi
      simpa using this
    · intro h
      have := partsLoop_all_ack env.pub parts 0 ⟨session, 0, 0⟩
        (by intro j hj; simpa using h j hj)
      rw [this] at hb
      obtain ⟨he, -, -⟩ := InnerResult.brk.inj hb.symm
      simp [he]
  · intro f hf
    rw [hw] at hf
    have he : e = some f := by simpa using hf
    subst he
    obtain ⟨k, hk, hok, -, hfail⟩ :=
      partsLoop_brk_some env.pub parts 0 ⟨session, 0, 0⟩ st' n f hb
    refine ⟨k, hk, ?_, by simpa using hfail⟩
    intro j hj
    simpa using hok j hj
  · intro env' n' sess h
    simp [writtenResults, h]

/-- C1 witness: a two-part transaction whose parts both confirm positively
receives exactly one `Result`. -/
theorem amqp_tx_exactly_one_result_witness :
    (writtenResults allOkEnv [[1], [2]] true).length = 1 :=
  (amqp_tx_exactly_one_result allOkEnv [[1], [2]] true rfl
    (fun i _ => by simp [allOkEnv])).1

/-- C2: if all parts before index `k` confirm positively and part `k` fails
— the publish call errors, or its confirmation is negative — the loop makes
exactly `k + 1` publish attempts (parts after `k` are never published) and
the one `Result` written reports part `k`'s failure; a publish error also
drops the session while a negative confirmation keeps it. -/
theorem amqp_first_failure_stops (env : TxEnv) (parts : List (List Nat))
    (session : Bool) (k : Nat)
    (hk : k < parts.length)
    (hok : ∀ j, j < k → env.pub j = .ok (.confirm true))
    (hresp : env.respClose = false) :
    (∀ c, env.pub k = .error c →
      processTransaction env parts session =
        .result (some (.publish c)) (k + 1) false) ∧
    (env.pub k = .ok (.confirm false) →
      processTransaction env parts session =
        .result (some .noAck) (k + 1) session) := by
  have hff := partsLoop_first_fail env.pub parts k 0 ⟨session, 0, 0⟩ hk
    (by intro j hj; simpa using hok j hj)
  constructor
  · intro c hc
    have h1 := hff.1 c (by simpa using hc)
    simp [processTransaction, h1, hresp]
  · intro hc
    have h2 := hff.2 (by simpa using hc)
    simp [processTransaction, h2, hresp]

/-- C2 witness: in a three-part transaction whose second part gets a
negative confirmation, only two parts are published and the `Result` is the
`NoAck` failure of part two. -/
theorem amqp_first_failure_stops_witness :
    processTransaction nack3Env parts3 true =
      .result (some .noAck) (1 + 1) true :=
  (amqp_first_failure_stops nack3Env parts3 true 1 (by simp [parts3])
    (fun j hj => by
      have hj0 : j = 0 := by omega
      subst hj0
      rfl)
    rfl).2 rfl

/-- C3: with three parts and a negative confirmation for part 2 the loop
writes a `NoAck` `Result` and keeps the session handle, while a publish
error on part 2 writes that error and drops the session; in general the
session flag survives any transaction in which no publish call errors, so
only a publish error — never a negative confirmation — forces a
reconnect. -/
theorem amqp_nack_keeps_session (env : TxEnv) (parts : List (List Nat))
    (session : Bool)
    (hnoerr : ∀ j c, env.pub j ≠ .error c) :
    processTransaction nack3Env parts3 true =
      .result (some .noAck) 2 true ∧
    processTransaction pubErr3Env parts3 true =
      .result (some (.publish 5)) 2 false ∧
    outcomeSession (processTransaction env parts session) = session := by
  refine ⟨rfl, rfl, ?_⟩
  have hs := partsLoop_session env.pub hnoerr parts 0 ⟨session, 0, 0⟩
  unfold processTransaction
  cases hb : partsLoop env.pub parts 0 ⟨session, 0, 0⟩ with
  | brk e st n =>
    rw [hb] at hs
    cases henv : env.respClose with
    | true => simpa [outcomeSession, innerSession] using hs
    | false => simpa [outcomeSession, innerSession] using hs
  | ret st n =>
    rw [hb] at hs
    simpa [outcomeSession, innerSession] using hs

/-- C3 witness: instantiated at an environment whose publishes all succeed
with positive confirmations. -/
theorem amqp_nack_keeps_session_witness :
    processTransaction nack3Env parts3 true =
      .result (some .noAck) 2 true ∧
    processTransaction pubErr3Env parts3 true =
      .result (some (.publish 5)) 2 false ∧
    outcomeSession (processTransaction allOkEnv [[3]] false) = false :=
  amqp_nack_keeps_session allOkEnv [[3]] false
    (fun j c => by simp [allOkEnv])

/-- Helper: `CloseAsync` never touches `closedChan`. -/
theorem closeAsync_closedCount (s : AMQPState) :
    (closeAsync s).closedCount = s.closedCount := by
  unfold closeAsync
  split <;> rfl

/-- Helper: every way the initial connect loop ends preserves the unclosed
`closedChan` — an exit goes through the deferred block, a success hands the
state on unchanged apart from the handles. -/
theorem initConnectPhase_closed :
    ∀ (l : List ConnAttempt) (s : AMQPState) (r : AMQPState ⊕ AMQPState),
    initConnectPhase l s = some r →
    (∃ s', r = .inl (finalize s') ∧ s'.closedCount = s.closedCount) ∨
    (∃ s', r = .inr s' ∧ s'.closedCount = s.closedCount) := by
  intro l
  induction l with
  | nil =>
    intro s r h
    cases h
  | cons a rest ih =>
    intro s r h
    cases a with
    | ok =>
      exact .inr ⟨connectOk s, (Option.some.inj h).symm, rfl⟩
    | fail b =>
      cases b with
      | false => exact ih s r h
      | true => exact .inl ⟨s, (Option.some.inj h).symm, rfl⟩

/-- Helper: same as `initConnectPhase_closed` for the reconnect retries. -/
theorem reconnectAttempts_closed :
    ∀ (l : List ConnAttempt) (s : AMQPState) (r : AMQPState ⊕ AMQPState),
    reconnectAttempts l s = some r →
    (∃ s', r = .inl (finalize s') ∧ s'.closedCount = s.closedCount) ∨
    (∃ s', r = .inr s' ∧ s'.closedCount = s.closedCount) := by
  intro l
  induction l with
  | nil =>
    intro s r h
    cases h
  | cons a rest ih =>
    intro s r h
    cases a with
    | ok =>
      exact .inr ⟨_, (Option.some.inj h).symm, rfl⟩
    | fail b =>
      cases b with
      | false => exact ih { s with mReconErr := s.mReconErr + 1 } r h
      | true => exact .inl ⟨_, (Option.some.inj h).symm, rfl⟩

/-- Helper: the reconnect phase (guard included) preserves the unclosed
`closedChan` on both outcomes. -/
theorem reconnectPhase_closed (l : List ConnAttempt) (s : AMQPState)
    (r : AMQPState ⊕ AMQPState) (h : reconnectPhase l s = some r) :
    (∃ s', r = .inl (finalize s') ∧ s'.closedCount = s.closedCount) ∨
    (∃ s', r = .inr s' ∧ s'.closedCount = s.closedCount) := by
  unfold reconnectPhase at h
  cases ha : s.amqpChan with
  | true =>
    rw [ha] at h
    exact .inr ⟨s, (Option.some.inj (by simpa using h)).symm, rfl⟩
  | false =>
    rw [ha] at h
    exact reconnectAttempts_closed l s r (by simpa using h)

/-- Helper: serving one transaction either exits through the deferred block
(flags cleared, `closedChan` closed once) or continues with `closedChan`
still unclosed. -/
theorem serveTx_closed (t : TxEnv) (p : List (List Nat)) (s : AMQPState)
    (sx : AMQPState) (oe : Option (Option Err))
    (h : serveTx t p s = (sx, oe)) :
    (oe = none →
      sx.running = 0 ∧ sx.conn = false ∧ sx.amqpChan = false ∧
      sx.closedCount = s.closedCount + 1) ∧
    (∀ e, oe = some e → sx.closedCount = s.closedCount) := by
  unfold serveTx at h
  cases hpl : partsLoop t.pub p 0 ⟨s.amqpChan, 0, 0⟩ with
  | ret st n =>
    rw [hpl] at h
    dsimp only at h
    obtain ⟨hsx, hoe⟩ := Prod.mk.inj h
    subst hsx
    subst hoe
    exact ⟨fun _ => ⟨rfl, rfl, rfl, rfl⟩, fun e he => by cases he⟩
  | brk err st n =>
    rw [hpl] at h
    dsimp only at h
    by_cases hrc : t.respClose = true
    · rw [if_pos hrc] at h
      obtain ⟨hsx, hoe⟩ := Prod.mk.inj h
      subst hsx
      subst hoe
      exact ⟨fun _ => ⟨rfl, rfl, rfl, rfl⟩, fun e he => by cases he⟩
    · rw [if_neg hrc] at h
      obtain ⟨hsx, hoe⟩ := Prod.mk.inj h
      subst hsx
      subst hoe
      constructor
      · intro hne
        cases hne
      · intro e he
        rfl

/-- Helper: whenever the outer loop terminates — close request observed at
any of its suspension points, transaction channel closed, or the running
flag found 0 — the state it leaves has run the deferred block exactly once
on top of the state it entered with. -/
theorem mainLoop_deferred (env : LoopEnv) :
    ∀ (fuel i : Nat) (s : AMQPState) (acc : List (Option Err))
      (fin : AMQPState) (rs : List (Option Err)),
    mainLoop env fuel i s acc = some (fin, rs) →
    fin.running = 0 ∧ fin.conn = false ∧ fin.amqpChan = false ∧
    fin.closedCount = s.closedCount + 1 := by
  intro fuel
  induction fuel with
  | zero =>
    intro i s acc fin rs h
    cases h
  | succ fuel ih =>
    intro i s acc fin rs h
    rw [mainLoop] at h
    have hs1 : (if (env.iter i).closeAsyncNow then closeAsync s
        else s).closedCount = s.closedCount := by
      cases hca : (env.iter i).closeAsyncNow <;>
        simp [closeAsync_closedCount]
    generalize hgen : (if (env.iter i).closeAsyncNow then closeAsync s
        else s) = s1 at h hs1
    by_cases hrun : s1.running ≠ 1
    · rw [if_pos hrun] at h
      simp only [Option.some.injEq, Prod.mk.injEq] at h
      obtain ⟨hf, -⟩ := h
      subst hf
      refine ⟨rfl, rfl, rfl, ?_⟩
      show s1.closedCount + 1 = s.closedCount + 1
      rw [hs1]
    · rw [if_neg hrun] at h
      cases hrp : reconnectPhase (env.iter i).reconnect s1 with
      | none =>
        rw [hrp] at h
        cases h
      | some r =>
        rw [hrp] at h
        rcases reconnectPhase_closed _ _ _ hrp with ⟨s', hr, hc⟩ | ⟨s', hr, hc⟩
        · subst hr
          simp only [Option.some.injEq, Prod.mk.injEq] at h
          obtain ⟨hf, -⟩ := h
          subst hf
          refine ⟨rfl, rfl, rfl, ?_⟩
          show s'.closedCount + 1 = s.closedCount + 1
          rw [hc, hs1]
        · subst hr
          cases htx : (env.iter i).txEvent with
          | close =>
            rw [htx] at h
            simp only [Option.some.injEq, Prod.mk.injEq] at h
            obtain ⟨hf, -⟩ := h
            subst hf
            refine ⟨rfl, rfl, rfl, ?_⟩
            show s'.closedCount + 1 = s.closedCount + 1
            rw [hc, hs1]
          | chanClosed =>
            rw [htx] at h
            simp only [Option.some.injEq, Prod.mk.injEq] at h
            obtain ⟨hf, -⟩ := h
            subst hf
            refine ⟨rfl, rfl, rfl, ?_⟩
            show s'.closedCount + 1 = s.closedCount + 1
            rw [hc, hs1]
          | tx parts txenv =>
            rw [htx] at h
            dsimp only at h
            cases hst : serveTx txenv parts s' with
            | mk sx oe =>
              rw [hst] at h
              have hserve := serveTx_closed txenv parts s' sx oe hst
              cases oe with
              | none =>
                simp only [Option.some.injEq, Prod.mk.injEq] at h
                obtain ⟨hf, -⟩ := h
                subst hf
                obtain ⟨h1, h2, h3, h4⟩ := hserve.1 rfl
                exact ⟨h1, h2, h3, by rw [h4, hc, hs1]⟩
              | some e =>
                have hrec := ih (i + 1) sx (acc ++ [e]) fin rs h
                refine ⟨hrec.1, hrec.2.1, hrec.2.2.1, ?_⟩
                rw [hrec.2.2.2, hserve.2 e rfl, hc, hs1]

/-- C6: on every exit path of the AMQP output's `loop` — close request
during the initial connect, during a reconnect wait, transaction channel
found closed, close request while awaiting a confirmation or writing a
`Result`, or the flag-driven exit at the top of the loop — the deferred
block runs: the final state has the running flag at 0, both session handles
released, and the closed-confirmation channel closed exactly once. -/
theorem amqp_loop_deferred (env : LoopEnv) (fuel : Nat)
    (fin : AMQPState) (rs : List (Option Err))
    (h : runLoop env fuel = some (fin, rs)) :
    fin.running = 0 ∧ fin.conn = false ∧ fin.amqpChan = false ∧
    fin.closedCount = 1 := by
  unfold runLoop at h
  cases hic : initConnectPhase env.initConnect startState with
  | none =>
    rw [hic] at h
    cases h
  | some r =>
    rw [hic] at h
    rcases initConnectPhase_closed _ _ _ hic with ⟨s', hr, hc⟩ | ⟨s', hr, hc⟩
    · subst hr
      simp only [Option.some.injEq, Prod.mk.injEq] at h
      obtain ⟨hf, -⟩ := h
      subst hf
      refine ⟨rfl, rfl, rfl, ?_⟩
      show s'.closedCount + 1 = 1
      rw [hc]
      rfl
    · subst hr
      dsimp only at h
      have := mainLoop_deferred env fuel 0 s' [] fin rs h
      refine ⟨this.1, this.2.1, this.2.2.1, ?_⟩
      rw [this.2.2.2, hc]
      rfl

/-- C6 witness: a run whose very first loop iteration observes the close
request ends with the deferred block applied once. -/
theorem amqp_loop_deferred_witness :
    cFin6.running = 0 ∧ cFin6.conn = false ∧ cFin6.amqpChan = false ∧
    cFin6.closedCount = 1 :=
  amqp_loop_deferred closeNowEnv 1 cFin6 [] rfl

/-- C9 counterexample: starting the output against a transport whose
`Connect` fails twice and then succeeds, the loop serves a transaction
(one success `Result` is written) having incremented the reconnect-error
counter zero times and the reconnect-success counter zero times — the
initial connect loop of lines 171-182 touches neither counter, so the
claimed two-and-one counts do not occur. -/
theorem amqp_startup_metrics_cex :
    runLoop startupFailEnv 2 = some (cFin9, [none]) ∧
    ¬ (cFin9.mReconErr = 2 ∧ cFin9.mReconSucc = 1) := by
  exact ⟨rfl, by decide⟩

/-- C9 (amended): the initial connect loop retries without touching the
reconnect metrics, while the reconnect loop — entered only once the session
handle has been lost — increments reconnect-error once per failed attempt
and reconnect-success once on recovery: two failures followed by a success
add exactly 2 and 1 before the loop proceeds to serve transactions. -/
theorem amqp_reconnect_metrics (s : AMQPState) (h : s.amqpChan = false) :
    initConnectPhase [.fail false, .fail false, .ok] s =
      some (.inr (connectOk s)) ∧
    reconnectPhase [.fail false, .fail false, .ok] s =
      some (.inr (connectOk { s with
        mReconErr := s.mReconErr + 2,
        mReconSucc := s.mReconSucc + 1 })) := by
  refine ⟨rfl, ?_⟩
  unfold reconnectPhase
  rw [h]
  rfl

/-- C9 amended-claim witness: instantiated at the fresh output state, whose
session handle is nil. -/
theorem amqp_reconnect_metrics_witness :
    initConnectPhase [.fail false, .fail false, .ok] newAMQP =
      some (.inr (connectOk newAMQP)) ∧
    reconnectPhase [.fail false, .fail false, .ok] newAMQP =
      some (.inr (connectOk { newAMQP with
        mReconErr := newAMQP.mReconErr + 2,
        mReconSucc := newAMQP.mReconSucc + 1 })) :=
  amqp_reconnect_metrics newAMQP rfl

end Benthos
